import Mathlib

/-!
Formal model of the chibisafe uploader (client chunk scheduler and server
chunk receiver/assembler), shallowly embedded from the TypeScript sources
`packages/uploader-client/src/index.ts` and `packages/uploader-module/src/index.ts`.

Files are modelled as lists of bytes (`List Nat`), the per-session temporary
directory as a partial map from the chunk-number key to the bytes stored in
that chunk file, and the effectful parts (network sends, callback
notifications, stream writes) as explicit state passing plus event lists.
-/

namespace ChibiUploader

/-- Client, `chibiUploader` line 97: `Math.ceil(file.size / chunkSize)`,
as a natural-number ceiling division. -/
def totalChunks (fileSize chunkSize : Nat) : Nat :=
  (fileSize + chunkSize - 1) / chunkSize

/-- Client chunk descriptor: `{ index, chunk }` as produced by `getChunks`. -/
structure Chunk where
  index : Nat
  chunk : List Nat
deriving Repr, DecidableEq

/-- Client, `getChunks` lines 135-148: for `i` in `0..totalChunks-1` it takes
`file.slice(chunkSize*i, chunkSize*i + chunkSize)` (clipped at the end of the
file, which is what `drop/take` do) and labels it with 1-based index `i+1`. -/
def getChunks (file : List Nat) (chunkSize : Nat) : List Chunk :=
  (List.range (totalChunks file.length chunkSize)).map fun i =>
    { index := i + 1, chunk := (file.drop (chunkSize * i)).take chunkSize }

/-- Ceiling property: `chunkSize * totalChunks` covers the whole file. -/
theorem le_mul_totalChunks (fs cs : Nat) (hcs : 0 < cs) :
    fs ≤ cs * totalChunks fs cs := by
  unfold totalChunks
  have hdm := Nat.div_add_mod (fs + cs - 1) cs
  have hmod : (fs + cs - 1) % cs < cs := Nat.mod_lt _ hcs
  generalize hq : (fs + cs - 1) / cs = q at hdm ⊢
  generalize hr : (fs + cs - 1) % cs = r at hdm hmod
  generalize hp : cs * q = p at hdm ⊢
  omega

/-- Ceiling property: all chunks but the last are needed to cover the file. -/
theorem mul_totalChunks_pred_lt (fs cs : Nat) (hcs : 0 < cs) (hfs : 0 < fs) :
    cs * (totalChunks fs cs - 1) < fs := by
  unfold totalChunks
  have hdm := Nat.div_add_mod (fs + cs - 1) cs
  have hmod : (fs + cs - 1) % cs < cs := Nat.mod_lt _ hcs
  have hq1 : 1 ≤ (fs + cs - 1) / cs := by
    rw [Nat.one_le_div_iff hcs]; omega
  generalize hq : (fs + cs - 1) / cs = q at hdm hq1 ⊢
  have hsplit : cs * q = cs * (q - 1) + cs := by
    have h := Nat.sub_add_cancel hq1
    calc cs * q = cs * (q - 1 + 1) := by rw [h]
    _ = cs * (q - 1) + cs := by rw [Nat.mul_succ]
  rw [hsplit] at hdm
  generalize hr : (fs + cs - 1) % cs = r at hdm hmod
  generalize hp : cs * (q - 1) = p at hdm ⊢
  omega

/-- The file size is positive iff at least one chunk is planned. -/
theorem totalChunks_pos (fs cs : Nat) (hcs : 0 < cs) (hfs : 0 < fs) :
    1 ≤ totalChunks fs cs := by
  unfold totalChunks
  rw [Nat.one_le_div_iff hcs]; omega

theorem totalChunks_zero (cs : Nat) (hcs : 0 < cs) : totalChunks 0 cs = 0 := by
  unfold totalChunks
  exact Nat.div_eq_of_lt (by omega)

/-- Concatenating the planned slices reconstructs a prefix of the file. -/
theorem flatten_slices (file : List Nat) (cs : Nat) (n : Nat) :
    (((List.range n).map fun i => (file.drop (cs * i)).take cs)).flatten
      = file.take (cs * n) := by
  induction n with
  | zero => simp
  | succ n ih =>
    rw [List.range_succ, List.map_append, List.flatten_append, ih]
    simp only [List.map_cons, List.map_nil, List.flatten_cons, List.flatten_nil,
      List.append_nil]
    rw [Nat.mul_succ, List.take_add]

/-- Elementwise description of the planned chunk list. -/
theorem getChunks_get (file : List Nat) (cs : Nat) (k : Nat)
    (hk : k < (getChunks file cs).length) :
    (getChunks file cs).get ⟨k, hk⟩
      = { index := k + 1, chunk := (file.drop (cs * k)).take cs } := by
  simp [getChunks]

theorem getChunks_length (file : List Nat) (cs : Nat) :
    (getChunks file cs).length = totalChunks file.length cs := by
  simp [getChunks]

/-- Taking `n` elements is the same as taking `min n length` elements. -/
theorem take_eq_take_min (l : List Nat) (a : Nat) :
    l.take a = l.take (min a l.length) := by
  rcases Nat.le_total a l.length with h | h
  · rw [Nat.min_eq_left h]
  · rw [Nat.min_eq_right h, List.take_of_length_le h, List.take_length]

/-- C2: for every fileSize > 0 and chunkSize > 0, the client computes
totalChunks = ceil(fileSize / chunkSize) (characterised by the two ceiling
inequalities), and getChunks returns descriptors with 1-based indices
1..totalChunks whose byte ranges are the slices
`[chunkSize*k, min(chunkSize*(k+1), fileSize))` of the file; the ranges
exactly cover the file in order with no gaps and no overlaps (their
concatenation is the file itself), and each chunk's length is clipped at
fileSize, so the last one may be shorter than chunkSize. -/
theorem getChunks_covers (file : List Nat) (cs : Nat)
    (hfs : 0 < file.length) (hcs : 0 < cs) :
    (getChunks file cs).length = totalChunks file.length cs
    ∧ file.length ≤ cs * totalChunks file.length cs
    ∧ cs * (totalChunks file.length cs - 1) < file.length
    ∧ (∀ k, (hk : k < (getChunks file cs).length) →
        ((getChunks file cs).get ⟨k, hk⟩).index = k + 1
        ∧ ((getChunks file cs).get ⟨k, hk⟩).chunk
            = (file.drop (cs * k)).take (min (cs * (k + 1)) file.length - cs * k)
        ∧ ((getChunks file cs).get ⟨k, hk⟩).chunk.length
            = min (cs * (k + 1)) file.length - cs * k)
    ∧ ((getChunks file cs).map Chunk.chunk).flatten = file := by
  refine ⟨getChunks_length file cs, le_mul_totalChunks _ _ hcs,
    mul_totalChunks_pred_lt _ _ hcs hfs, ?_, ?_⟩
  · intro k hk
    have hkN : k < totalChunks file.length cs := by
      rw [getChunks_length] at hk; exact hk
    have hlt : cs * k < file.length := by
      have h1 : cs * k ≤ cs * (totalChunks file.length cs - 1) :=
        Nat.mul_le_mul_left cs (by omega)
      exact Nat.lt_of_le_of_lt h1 (mul_totalChunks_pred_lt _ _ hcs hfs)
    rw [getChunks_get file cs k hk]
    have hmin : min (cs * (k + 1)) file.length - cs * k
        = min cs (file.length - cs * k) := by
      rw [Nat.mul_succ]
      generalize cs * k = a at hlt ⊢
      omega
    constructor
    · rfl
    constructor
    · show (file.drop (cs * k)).take cs = _
      rw [hmin, take_eq_take_min (file.drop (cs * k)) cs, List.length_drop]
    · show ((file.drop (cs * k)).take cs).length = _
      rw [List.length_take, List.length_drop, hmin]
  · have hmap : (getChunks file cs).map Chunk.chunk
        = (List.range (totalChunks file.length cs)).map
            fun i => (file.drop (cs * i)).take cs := by
      simp [getChunks]
    rw [hmap, flatten_slices]
    exact List.take_of_length_le (le_mul_totalChunks _ _ hcs)

/-- Witness for C2 at the spec's own example: 250 bytes split at chunk size
100 yield chunks of length 100, 100, 50 covering the file. -/
theorem getChunks_covers_witness :
    (0 : Nat) < (List.range 250).length ∧ (0 : Nat) < 100
    ∧ ((getChunks (List.range 250) 100).map Chunk.chunk).flatten
        = List.range 250
    ∧ totalChunks (List.range 250).length 100 = 3 :=
  ⟨by simp, by norm_num,
    (getChunks_covers (List.range 250) 100 (by simp) (by norm_num)).2.2.2.2,
    by norm_num [totalChunks, List.length_range]⟩

/-- Server, `handleFileWithChunks` lines 327-343: the value the promise is
resolved with when the chunk file's write stream closes. -/
structure ChunkUploadOutcome where
  finished : Bool
  finalFilePath : Option String
  dirPath : Option String
  total : Option Int
deriving Repr, DecidableEq

/-- Server, `handleFileWithChunks` lines 292-347.  The temp directory is a
map from the chunk-number key to the chunk file's bytes.  The function
creates a write stream at `dirPath/chunkNumber` (which creates the chunk
file), performs the range guard (which rejects the promise but does not
return, so the request body is still piped into the chunk file), and on
stream close resolves with `finished = (chunkCount == totalChunks)`; the
first settlement of the promise wins, so an out-of-range chunk reports
the rejection even though its file was written. -/
def handleFileWithChunks (destination uuid ext : String)
    (chunkCount total : Int) (data : List Nat)
    (tmp : Int → Option (List Nat)) :
    (Int → Option (List Nat)) × Except String ChunkUploadOutcome :=
  let filePath := destination ++ "/" ++ uuid
  let dirPath := destination ++ "/" ++ uuid ++ "_tmp"
  let tmp' : Int → Option (List Nat) :=
    fun j => if j = chunkCount then some data else tmp j
  let outcome : Except String ChunkUploadOutcome :=
    if chunkCount < 0 ∨ chunkCount > total then
      Except.error "Chunk is out of range"
    else if chunkCount = total then
      Except.ok { finished := true, finalFilePath := some (filePath ++ ext),
                  dirPath := some dirPath, total := some total }
    else
      Except.ok { finished := false, finalFilePath := none,
                  dirPath := none, total := none }
  (tmp', outcome)

/-- Server, `joinChunks` lines 380-392: the value the promise is resolved
with once every chunk has been copied into the final artifact. -/
structure JoinResolved where
  isChunkedUpload : Bool
  ready : Bool
  path : String
deriving Repr, DecidableEq

/-- Result of a successful join: the bytes written to the final artifact,
the resolved value, and whether the temp directory was removed. -/
structure JoinOutput where
  data : List Nat
  resolved : JoinResolved
  tempDirRemoved : Bool
deriving Repr, DecidableEq

/-- Server, `joinChunks` recursion `pipeChunk` lines 363-399: starting at
`chunkCount`, read the chunk file named by the counter (a missing file
raises the read error and rejects), append its bytes to the artifact,
and continue while `chunkCount + 1 <= totalChunks`; the fuel argument is
the number of further chunks still to read. -/
def joinAux (files : Int → Option (List Nat)) : Nat → Nat → Option (List Nat)
  | 0, c => files (c : Int)
  | k + 1, c =>
    match files (c : Int) with
    | none => none
    | some d =>
      match joinAux files k (c + 1) with
      | none => none
      | some rest => some (d ++ rest)

/-- Server, `joinChunks` lines 349-403: concatenate chunk files
`1..totalChunks` in index order into the final artifact; on success delete
the temp directory and resolve `{ isChunkedUpload: true, ready: false,
path: finalFilePath }`. -/
def joinChunks (files : Int → Option (List Nat)) (total : Nat)
    (finalFilePath : String) : Option JoinOutput :=
  (joinAux files (total - 1) 1).map fun data =>
    { data := data,
      resolved := { isChunkedUpload := true, ready := false,
                    path := finalFilePath },
      tempDirRemoved := true }

/-- State of the session's temp directory after the client has uploaded
every planned chunk through `handleFileWithChunks`, starting from an
empty directory. -/
def uploadAllChunks (destination uuid ext : String) (chunks : List Chunk)
    (total : Int) : Int → Option (List Nat) :=
  chunks.foldl
    (fun tmp c =>
      (handleFileWithChunks destination uuid ext (c.index : Int) total
        c.chunk tmp).1)
    (fun _ => none)

/-- After uploading the planned chunks in order, the temp directory holds,
under each key `1..n`, exactly the bytes of that chunk. -/
theorem uploadAllChunks_lookup (destination uuid ext : String)
    (file : List Nat) (cs : Nat) (t : Int) :
    ∀ n i, 1 ≤ i → i ≤ n →
      (((List.range n).map fun k =>
          Chunk.mk (k + 1) ((file.drop (cs * k)).take cs)).foldl
        (fun tmp c =>
          (handleFileWithChunks destination uuid ext (c.index : Int) t
            c.chunk tmp).1)
        (fun _ => none)) (i : Int)
      = some ((file.drop (cs * (i - 1))).take cs) := by
  intro n
  induction n with
  | zero => intro i h1 h2; omega
  | succ n ih =>
    intro i h1 h2
    rw [List.range_succ, List.map_append, List.foldl_append]
    simp only [List.map_cons, List.map_nil, List.foldl_cons, List.foldl_nil]
    by_cases hi : i = n + 1
    · subst hi
      simp [handleFileWithChunks]
    · have hile : i ≤ n := by omega
      have hne : (i : Int) ≠ ((n + 1 : Nat) : Int) := by
        exact_mod_cast hi
      simp only [handleFileWithChunks]
      rw [if_neg hne]
      exact ih i h1 hile

/-- Reading chunks `c..c+k` of a directory that stores the planned slices
yields the corresponding contiguous slice of the file. -/
theorem joinAux_slices (file : List Nat) (cs : Nat) (N : Nat)
    (files : Int → Option (List Nat))
    (hfiles : ∀ i, 1 ≤ i → i ≤ N →
      files (i : Int) = some ((file.drop (cs * (i - 1))).take cs)) :
    ∀ k c, 1 ≤ c → c + k = N →
      joinAux files k c = some ((file.drop (cs * (c - 1))).take (cs * (k + 1))) := by
  intro k
  induction k with
  | zero =>
    intro c h1 h2
    show files (c : Int) = _
    rw [hfiles c h1 (by omega), Nat.mul_one]
  | succ k ih =>
    intro c h1 h2
    show (match files (c : Int) with
      | none => none
      | some d =>
        match joinAux files k (c + 1) with
        | none => none
        | some rest => some (d ++ rest)) = _
    rw [hfiles c h1 (by omega), ih (c + 1) (by omega) (by omega)]
    show some ((file.drop (cs * (c - 1))).take cs
        ++ (file.drop (cs * (c + 1 - 1))).take (cs * (k + 1))) = _
    have hidx : cs * (c + 1 - 1) = cs * (c - 1) + cs := by
      have h : c - 1 + 1 = c := Nat.sub_add_cancel h1
      calc cs * (c + 1 - 1) = cs * c := rfl
      _ = cs * (c - 1 + 1) := by rw [h]
      _ = cs * (c - 1) + cs := Nat.mul_succ cs (c - 1)
    rw [hidx, ← List.drop_drop, ← List.take_add]
    have harith : cs + cs * (k + 1) = cs * (k + 1 + 1) := by ring
    rw [harith]

/-- C1: uploading the chunks `1..totalChunks` that `getChunks` planned for a
non-empty file through the server's chunk receiver and then running
`joinChunks` concatenates the chunk files in index order `1, 2, ...,
totalChunks`, reproduces the original file byte-for-byte, removes the temp
directory, and resolves successfully. -/
theorem joinChunks_roundTrip (destination uuid ext finalPath : String)
    (file : List Nat) (cs : Nat) (hcs : 0 < cs) (hfs : 0 < file.length) :
    joinChunks
      (uploadAllChunks destination uuid ext (getChunks file cs)
        ((totalChunks file.length cs : Nat) : Int))
      (totalChunks file.length cs) finalPath
    = some { data := file,
             resolved := { isChunkedUpload := true, ready := false,
                           path := finalPath },
             tempDirRemoved := true } := by
  have hN1 : 1 ≤ totalChunks file.length cs := totalChunks_pos _ _ hcs hfs
  have hlookup : ∀ i, 1 ≤ i → i ≤ totalChunks file.length cs →
      uploadAllChunks destination uuid ext (getChunks file cs)
        ((totalChunks file.length cs : Nat) : Int) (i : Int)
      = some ((file.drop (cs * (i - 1))).take cs) := by
    intro i h1 h2
    exact uploadAllChunks_lookup destination uuid ext file cs _
      (totalChunks file.length cs) i h1 h2
  have hjoin := joinAux_slices file cs (totalChunks file.length cs) _ hlookup
    (totalChunks file.length cs - 1) 1 (by omega) (by omega)
  unfold joinChunks
  rw [hjoin]
  have hdata : (file.drop (cs * (1 - 1))).take (cs * (totalChunks file.length cs - 1 + 1))
      = file := by
    have h1 : cs * (1 - 1) = 0 := by omega
    have h2 : totalChunks file.length cs - 1 + 1 = totalChunks file.length cs := by
      omega
    rw [h1, h2, List.drop_zero]
    exact List.take_of_length_le (le_mul_totalChunks _ _ hcs)
  rw [hdata]
  rfl

/-- Witness for C1: a concrete 5-byte file split at chunk size 2 uploads as
three chunks and joins back to the original bytes. -/
theorem joinChunks_roundTrip_witness :
    joinChunks
      (uploadAllChunks "dest" "uuid" ".bin" (getChunks [10, 11, 12, 13, 14] 2)
        ((totalChunks 5 2 : Nat) : Int))
      (totalChunks 5 2) "dest/final.bin"
    = some { data := [10, 11, 12, 13, 14],
             resolved := { isChunkedUpload := true, ready := false,
                           path := "dest/final.bin" },
             tempDirRemoved := true } :=
  joinChunks_roundTrip "dest" "uuid" ".bin" "dest/final.bin"
    [10, 11, 12, 13, 14] 2 (by norm_num) (by norm_num)

/-- C3 (code behaviour at the failing input): a chunk with number 5 when
only 3 chunks were declared is rejected with the validation error, but the
chunk file for index 5 is nevertheless created in the session's temp
directory and the request body is written into it: `createWriteStream`
runs before the range guard and the guard's `reject` is not followed by a
`return`, so `fileStream.pipe(writeStream)` still executes. -/
theorem outOfRange_rejected_but_persisted :
    (handleFileWithChunks "dest" "uuid" "" 5 3 [1, 2, 3] (fun _ => none)).2
      = Except.error "Chunk is out of range"
    ∧ (handleFileWithChunks "dest" "uuid" "" 5 3 [1, 2, 3] (fun _ => none)).1 5
      = some [1, 2, 3] := by
  constructor
  · rfl
  · rfl

/-- Server `Result` interface lines 26-31 as seen by `processFile`: fields
that the resolved object may simply not carry are `Option`s. -/
structure UploadResult where
  isChunkedUpload : Bool
  ready : Option Bool
  path : Option String
  metadata : Option (List (String × String))
deriving Repr, DecidableEq

/-- Server, `processBusboy` lines 221-224: the value resolved for a chunked
request that is not the final chunk; it carries neither `path` nor
`metadata`. -/
def intermediateChunkResult : UploadResult :=
  { isChunkedUpload := true, ready := some false, path := none,
    metadata := none }

/-- Server, `processBusboy` lines 201-225 (chunked branch, after busboy has
closed and `handleFileWithChunks` has resolved): when the upload is
finished, run `joinChunks` and resolve the stitched result spread with the
collected metadata; otherwise resolve `intermediateChunkResult`.  `none`
models a rejected promise. -/
def processBusboyChunked (files : Int → Option (List Nat))
    (metadata : List (String × String)) (upload : ChunkUploadOutcome) :
    Option UploadResult :=
  if upload.finished then
    (joinChunks files (upload.total.getD 0).toNat
        (upload.finalFilePath.getD "")).map
      fun out =>
        { isChunkedUpload := out.resolved.isChunkedUpload,
          ready := some out.resolved.ready,
          path := some out.resolved.path,
          metadata := some metadata }
  else
    some intermediateChunkResult

/-- Server, `processFile` lines 66-87: after `processBusboy` resolves, the
code runs `jetpack.inspectAsync(upload.path as string)` (which rejects when
`upload.path` is `undefined`, jetpack validates that the path is a string)
and then assigns `upload.metadata.size` (which raises a `TypeError` when
`upload.metadata` is `undefined`).  `inspectSize` models the stat call. -/
def processFile (inspectSize : String → Option Nat)
    (upload : UploadResult) : Except String UploadResult :=
  match upload.path with
  | none => Except.error "path must be a string. Received undefined"
  | some p =>
    match upload.metadata with
    | none => Except.error "TypeError: cannot set properties of undefined"
    | some md =>
      Except.ok { upload with
        metadata := some (md ++ [("size",
          match inspectSize p with
          | some n => toString n
          | none => "undefined")]) }

/-- C8: for every non-final chunk (index nonnegative and strictly below the
declared total) the receiver resolves with `finished = false`, `processBusboy`
then resolves `intermediateChunkResult`, which carries neither `path` nor
`metadata`; `processFile` unconditionally inspects `upload.path` and so
rejects on that value for every possible stat oracle, instead of returning
the intermediate result. -/
theorem nonFinal_chunk_processFile_rejects (destination uuid ext : String)
    (c t : Int) (data : List Nat) (tmp : Int → Option (List Nat))
    (h0 : 0 ≤ c) (hlt : c < t) :
    (handleFileWithChunks destination uuid ext c t data tmp).2
      = Except.ok { finished := false, finalFilePath := none,
                    dirPath := none, total := none }
    ∧ (∀ files metadata,
        processBusboyChunked files metadata
          { finished := false, finalFilePath := none, dirPath := none,
            total := none }
        = some intermediateChunkResult)
    ∧ intermediateChunkResult.path = none
    ∧ intermediateChunkResult.metadata = none
    ∧ (∀ inspectSize, processFile inspectSize intermediateChunkResult
        = Except.error "path must be a string. Received undefined") := by
  refine ⟨?_, fun files metadata => rfl, rfl, rfl, fun inspectSize => rfl⟩
  show (if c < 0 ∨ c > t then Except.error "Chunk is out of range"
    else if c = t then _ else _) = _
  rw [if_neg (by omega), if_neg (by omega)]

/-- Witness for C8: chunk 1 of 3 is a non-final chunk; `processFile`
rejects even though the receiver accepted the chunk. -/
theorem nonFinal_chunk_processFile_rejects_witness :
    (handleFileWithChunks "dest" "uuid" "" 1 3 [7] (fun _ => none)).2
      = Except.ok { finished := false, finalFilePath := none,
                    dirPath := none, total := none }
    ∧ processFile (fun _ => some 7) intermediateChunkResult
      = Except.error "path must be a string. Received undefined" :=
  ⟨(nonFinal_chunk_processFile_rejects "dest" "uuid" "" 1 3 [7]
      (fun _ => none) (by norm_num) (by norm_num)).1,
    (nonFinal_chunk_processFile_rejects "dest" "uuid" "" 1 3 [7]
      (fun _ => none) (by norm_num) (by norm_num)).2.2.2.2 (fun _ => some 7)⟩

/-- C10: whenever `joinChunks` succeeds it resolves
`{ isChunkedUpload := true, ready := false, path := finalFilePath }`, and the
chunked-upload result that `processBusboy` hands to the caller for the
completed upload carries the same `ready` flag as `intermediateChunkResult`,
so the caller cannot distinguish completion from an intermediate chunk by
the `ready` flag alone. -/
theorem joinChunks_ready_false (files : Int → Option (List Nat))
    (total : Nat) (finalPath : String) (out : JoinOutput)
    (h : joinChunks files total finalPath = some out) :
    out.resolved = { isChunkedUpload := true, ready := false,
                     path := finalPath }
    ∧ out.resolved.ready = false
    ∧ intermediateChunkResult.ready = some false
    ∧ some out.resolved.ready = intermediateChunkResult.ready := by
  unfold joinChunks at h
  cases hj : joinAux files (total - 1) 1 with
  | none => rw [hj] at h; exact Option.noConfusion h
  | some data =>
    rw [hj] at h
    simp only [Option.map_some'] at h
    cases h
    exact ⟨rfl, rfl, rfl, rfl⟩

/-- Witness for C10: a one-chunk directory joins successfully and the
resolved value reports `ready = false`. -/
theorem joinChunks_ready_false_witness :
    (joinChunks (fun j => if j = 1 then some [7] else none) 1 "p").map
      (fun out => out.resolved.ready) = some false := by
  have h : joinChunks (fun j => if j = 1 then some [7] else none) 1 "p"
      = some { data := [7],
               resolved := { isChunkedUpload := true, ready := false,
                             path := "p" },
               tempDirRemoved := true } := rfl
  have h2 : (JoinOutput.mk [7] (JoinResolved.mk true false "p")
      true).resolved.ready = false :=
    (joinChunks_ready_false (fun j => if j = 1 then some [7] else none)
      1 "p" _ h).2.1
  rw [h, Option.map_some', h2]

/-- Client, `chibiUploader` lines 112-126: the per-session uploader record. -/
structure Uploader where
  start : Nat
  chunkIndex : Nat
  totalChunks : Nat
  retriesCount : Nat
  offline : Bool
  paused : Bool
deriving Repr, DecidableEq

/-- Client: the module-level `StopUploadsBecauseError` flag (line 28)
together with the session's uploader record. -/
structure ClientState where
  stopUploadsBecauseError : Bool
  uploader : Uploader
deriving Repr, DecidableEq

/-- A fetch response as classified by `actuallySendChunks`: an HTTP status
plus whether the JSON body parses and carries a `url` field, or a network
level failure (the `catch` branch). -/
inductive Resp
  | status (code : Nat) (hasUrl : Bool) (jsonOk : Bool)
  | netError
deriving Repr, DecidableEq

/-- Observable client events: a network send performed by `sendChunk`, and
the `onProgress` / `onFinish` / `onError` / `onRetry` callback
notifications. -/
inductive ClientEv
  | netSend (index : Nat)
  | onProgress (pct : Nat)
  | onFinish
  | onError (msg : String)
  | onRetry (index retriesLeft : Nat)
deriving Repr, DecidableEq

/-- Client, line 248: `Math.round((100 / uploader.totalChunks) * index)`,
modelled as nearest-integer rounding of the rational `100 * index / total`
(ties round up, as `Math.round` does). -/
def roundProgress (total index : Nat) : Nat :=
  (200 * index + total) / (2 * total)

/-- Client, `manageRetries` lines 217-233: the session-level counter
`uploader.retriesCount` is post-incremented and compared against `retries`;
below the budget an `onRetry` notification fires (and a full `sendChunks`
pass is scheduled), otherwise a terminal `onError` fires.  There is no
per-chunk bookkeeping: the single counter is shared by all chunks. -/
def manageRetries (retries : Nat) (st : ClientState) (index : Nat) :
    ClientState × List ClientEv :=
  let count := st.uploader.retriesCount
  let st' : ClientState :=
    { st with uploader := { st.uploader with retriesCount := count + 1 } }
  if count < retries then
    (st', [ClientEv.onRetry index (retries - (count + 1))])
  else
    (st', [ClientEv.onError ("An error occured uploading chunk "
      ++ toString index ++ ". No more retries, stopping upload")])

/-- Client, `actuallySendChunks` lines 235-284 for one invocation: skip
everything when the stop flag is set; otherwise `sendChunk` performs the
network request (whose response is `undefined` for a single-chunk session,
which the XHR path handles itself) and the response status is classified:
success updates progress and, on the last chunk, parses the body for the
completion URL; 408/502/503/504 and network errors go to `manageRetries`
unless paused/offline; 413 reports a fatal error and sets the process-wide
stop flag; anything else reports a fatal error. -/
def actuallySendChunks (retries : Nat) (st : ClientState) (index : Nat)
    (fetchResp : Resp) : ClientState × List ClientEv :=
  if st.stopUploadsBecauseError then (st, [])
  else
    match (if st.uploader.totalChunks = 1 then none else some fetchResp :
        Option Resp) with
    | none => (st, [ClientEv.netSend index])
    | some Resp.netError =>
      if st.uploader.paused || st.uploader.offline then
        (st, [ClientEv.netSend index])
      else
        let p := manageRetries retries st index
        (p.1, ClientEv.netSend index :: p.2)
    | some (Resp.status code hasUrl jsonOk) =>
      if code = 200 ∨ code = 201 ∨ code = 204 then
        if 1 < st.uploader.totalChunks then
          if st.uploader.totalChunks = index then
            if jsonOk then
              if hasUrl then
                (st, [ClientEv.netSend index,
                  ClientEv.onProgress (roundProgress st.uploader.totalChunks index),
                  ClientEv.onFinish])
              else
                (st, [ClientEv.netSend index,
                  ClientEv.onProgress (roundProgress st.uploader.totalChunks index),
                  ClientEv.onError "No URL returned by the server"])
            else
              (st, [ClientEv.netSend index,
                ClientEv.onProgress (roundProgress st.uploader.totalChunks index),
                ClientEv.onError "There was a problem parsing the JSON response"])
          else
            (st, [ClientEv.netSend index,
              ClientEv.onProgress (roundProgress st.uploader.totalChunks index)])
        else (st, [ClientEv.netSend index])
      else if code = 408 ∨ code = 502 ∨ code = 503 ∨ code = 504 then
        if st.uploader.paused || st.uploader.offline then
          (st, [ClientEv.netSend index])
        else
          let p := manageRetries retries st index
          (p.1, ClientEv.netSend index :: p.2)
      else if code = 413 then
        ({ st with stopUploadsBecauseError := true },
          [ClientEv.netSend index,
            ClientEv.onError "Chunks are too big. Stopping upload"])
      else
        if st.uploader.paused || st.uploader.offline then
          (st, [ClientEv.netSend index])
        else
          (st, [ClientEv.netSend index,
            ClientEv.onError ("Server responded with " ++ toString code
              ++ ". Stopping upload")])

/-- Sequential run of `actuallySendChunks` invocations: each list element is
the chunk index sent and the response the network returns for it. -/
def runSends (retries : Nat) :
    ClientState → List (Nat × Resp) → ClientState × List ClientEv
  | st, [] => (st, [])
  | st, s :: rest =>
    let p := actuallySendChunks retries st s.1 s.2
    let q := runSends retries p.1 rest
    (q.1, p.2 ++ q.2)

/-- Once the stop flag is set, every later `actuallySendChunks` call returns
without sending anything and without emitting any event. -/
theorem runSends_stopped (retries : Nat) (st : ClientState)
    (l : List (Nat × Resp)) (h : st.stopUploadsBecauseError = true) :
    runSends retries st l = (st, []) := by
  induction l with
  | nil => rfl
  | cons s rest ih =>
    show (let p := actuallySendChunks retries st s.1 s.2
          let q := runSends retries p.1 rest
          (q.1, p.2 ++ q.2)) = (st, [])
    simp only [actuallySendChunks, h, if_true, ih]
    rfl

/-- C5: in a multi-chunk session, as soon as any chunk receives a 413
response the scheduler reports the fatal size error, sets the process-wide
stop flag and does not retry that chunk; every later `actuallySendChunks`
call returns without sending, so no further chunk of the session reaches
the network and the whole remaining run emits exactly the single fatal
error notification and nothing else. -/
theorem resp413_stops_session (retries : Nat) (st : ClientState)
    (index : Nat) (hasUrl jsonOk : Bool) (rest : List (Nat × Resp))
    (hstop : st.stopUploadsBecauseError = false)
    (hmulti : st.uploader.totalChunks ≠ 1) :
    runSends retries st ((index, Resp.status 413 hasUrl jsonOk) :: rest)
      = ({ st with stopUploadsBecauseError := true },
         [ClientEv.netSend index,
           ClientEv.onError "Chunks are too big. Stopping upload"]) := by
  show (let p := actuallySendChunks retries st index
          (Resp.status 413 hasUrl jsonOk)
        let q := runSends retries p.1 rest
        (q.1, p.2 ++ q.2)) = _
  have h413 : actuallySendChunks retries st index
      (Resp.status 413 hasUrl jsonOk)
      = ({ st with stopUploadsBecauseError := true },
         [ClientEv.netSend index,
           ClientEv.onError "Chunks are too big. Stopping upload"]) := by
    unfold actuallySendChunks
    rw [hstop]
    simp only [Bool.false_eq_true, if_false, if_neg hmulti]
    norm_num
  simp only [h413]
  rw [runSends_stopped retries _ rest rfl]
  rfl

/-- Witness for C5: with three chunks planned, a 413 on chunk 1 stops the
session; the two later sends (which would have succeeded) never reach the
network and no further notification is emitted. -/
theorem resp413_stops_session_witness :
    runSends 5 (ClientState.mk false (Uploader.mk 0 0 3 0 false false))
      [(1, Resp.status 413 true true), (2, Resp.status 200 true true),
       (3, Resp.status 200 true true)]
      = (ClientState.mk true (Uploader.mk 0 0 3 0 false false),
         [ClientEv.netSend 1,
           ClientEv.onError "Chunks are too big. Stopping upload"]) :=
  resp413_stops_session 5 (ClientState.mk false (Uploader.mk 0 0 3 0 false false))
    1 true true [(2, Resp.status 200 true true), (3, Resp.status 200 true true)]
    rfl (by norm_num)

/-- Sequential run of `manageRetries` for a list of failed chunk attempts
(each element is the index of the chunk whose attempt failed). -/
def runRetries (retries : Nat) :
    ClientState → List Nat → ClientState × List ClientEv
  | st, [] => (st, [])
  | st, i :: rest =>
    let p := manageRetries retries st i
    let q := runRetries retries p.1 rest
    (q.1, p.2 ++ q.2)

/-- The notification produced by the k-th failed attempt overall (k counted
from 0 across all chunks): `onRetry` while k is below the budget, the
terminal `onError` afterwards. -/
def retryEventAt (retries : Nat) (p : Nat × Nat) : ClientEv :=
  if p.1 < retries then ClientEv.onRetry p.2 (retries - (p.1 + 1))
  else ClientEv.onError ("An error occured uploading chunk "
    ++ toString p.2 ++ ". No more retries, stopping upload")

def isRetryEvent : ClientEv → Bool
  | ClientEv.onRetry _ _ => true
  | _ => false

def isErrorEvent : ClientEv → Bool
  | ClientEv.onError _ => true
  | _ => false

theorem runRetries_state (retries : Nat) (l : List Nat) :
    ∀ st : ClientState, (runRetries retries st l).1
      = { st with uploader := { st.uploader with
            retriesCount := st.uploader.retriesCount + l.length } } := by
  induction l with
  | nil =>
    intro st
    cases st with
    | mk stop up =>
      cases up
      simp [runRetries]
  | cons i rest ih =>
    intro st
    show (runRetries retries (manageRetries retries st i).1 rest).1 = _
    have hst : (manageRetries retries st i).1
        = { st with uploader := { st.uploader with
              retriesCount := st.uploader.retriesCount + 1 } } := by
      unfold manageRetries
      by_cases h : st.uploader.retriesCount < retries <;> simp [h]
    rw [hst, ih]
    simp [List.length_cons]
    omega

theorem runRetries_events (retries : Nat) (l : List Nat) :
    ∀ st : ClientState, (runRetries retries st l).2
      = (List.enumFrom st.uploader.retriesCount l).map (retryEventAt retries) := by
  induction l with
  | nil => intro st; rfl
  | cons i rest ih =>
    intro st
    show (manageRetries retries st i).2
        ++ (runRetries retries (manageRetries retries st i).1 rest).2 = _
    have hst : (manageRetries retries st i).1
        = { st with uploader := { st.uploader with
              retriesCount := st.uploader.retriesCount + 1 } } := by
      unfold manageRetries
      by_cases h : st.uploader.retriesCount < retries <;> simp [h]
    rw [hst, ih]
    show _ = (retryEventAt retries (st.uploader.retriesCount, i))
        :: (List.enumFrom (st.uploader.retriesCount + 1) rest).map
            (retryEventAt retries)
    unfold manageRetries retryEventAt
    by_cases h : st.uploader.retriesCount < retries <;> simp [h]

/-- A success response never reaches `manageRetries`: the scheduler state
(and in particular the retry counter) is unchanged and no retry
notification is emitted. -/
theorem actuallySendChunks_success_no_retry (retries : Nat)
    (st : ClientState) (index : Nat) (hasUrl jsonOk : Bool) :
    (actuallySendChunks retries st index (Resp.status 200 hasUrl jsonOk)).1 = st
    ∧ ((actuallySendChunks retries st index
        (Resp.status 200 hasUrl jsonOk)).2.filter isRetryEvent) = [] := by
  unfold actuallySendChunks
  by_cases hstop : st.stopUploadsBecauseError
  · simp [hstop]
  · by_cases h1 : st.uploader.totalChunks = 1
    · simp [hstop, h1, isRetryEvent]
    · simp only [hstop, h1, if_false, Bool.false_eq_true]
      norm_num
      by_cases h2 : 1 < st.uploader.totalChunks
      · by_cases h3 : st.uploader.totalChunks = index
        · have h6 : 1 < index := h3 ▸ h2
          by_cases h4 : jsonOk = true
          · by_cases h5 : hasUrl = true
            · simp [h2, h3, h4, h5, h6, isRetryEvent]
            · simp [h2, h3, h4, h5, h6, isRetryEvent]
          · simp [h2, h3, h4, h6, isRetryEvent]
        · simp [h2, h3, isRetryEvent]
      · simp [h2, isRetryEvent]

/-- C4 counterexample: the retry budget is not tracked per chunk.  First,
with retries = 3 three consecutive 503 responses for chunk 1 produce three
onRetry notifications and no terminal onError at all (the error would only
come with a fourth failure).  Second, with retries = 2 a failure of chunk 2
consumes budget that the claim reserves for chunk 1: after 503s on chunks
1, 2, 1 the second failure of chunk 1 is answered with the terminal
onError, although chunk 1 alone has failed only twice. -/
theorem perChunk_retry_budget_counterexample :
    (runSends 3 (ClientState.mk false (Uploader.mk 0 0 5 0 false false))
      [(1, Resp.status 503 true true), (1, Resp.status 503 true true),
       (1, Resp.status 503 true true)]).2
      = [ClientEv.netSend 1, ClientEv.onRetry 1 2, ClientEv.netSend 1,
         ClientEv.onRetry 1 1, ClientEv.netSend 1, ClientEv.onRetry 1 0]
    ∧ ((runSends 3 (ClientState.mk false (Uploader.mk 0 0 5 0 false false))
      [(1, Resp.status 503 true true), (1, Resp.status 503 true true),
       (1, Resp.status 503 true true)]).2.filter isErrorEvent) = []
    ∧ (runSends 2 (ClientState.mk false (Uploader.mk 0 0 5 0 false false))
      [(1, Resp.status 503 true true), (2, Resp.status 503 true true),
       (1, Resp.status 503 true true)]).2
      = [ClientEv.netSend 1, ClientEv.onRetry 1 1, ClientEv.netSend 2,
         ClientEv.onRetry 2 0, ClientEv.netSend 1,
         ClientEv.onError "An error occured uploading chunk 1. No more retries, stopping upload"] := by
  refine ⟨?_, ?_, ?_⟩ <;> rfl

/-- C4 as amended: the client's retry budget is a single per-session counter
(`uploader.retriesCount`) shared by all chunks, not a per-chunk mapping;
every failed attempt of any chunk increments it, the k-th failure overall
(k from 0) produces an onRetry notification when k < retries and the
terminal onError notification otherwise — so with retries = 3 three
consecutive 503s for one chunk give exactly three onRetry notifications
and the terminal onError only arrives with a fourth failure — while a
success response never touches the counter and produces no retry
notification, so a 200 on the second attempt stops further retries. -/
theorem manageRetries_session_budget :
    (∀ retries : Nat, ∀ st : ClientState, ∀ l : List Nat,
        (runRetries retries st l).1
          = { st with uploader := { st.uploader with
                retriesCount := st.uploader.retriesCount + l.length } }
        ∧ (runRetries retries st l).2
          = (List.enumFrom st.uploader.retriesCount l).map
              (retryEventAt retries))
    ∧ (∀ retries : Nat, ∀ st : ClientState, ∀ index : Nat,
        ∀ hasUrl jsonOk : Bool,
        (actuallySendChunks retries st index
            (Resp.status 200 hasUrl jsonOk)).1 = st
        ∧ ((actuallySendChunks retries st index
            (Resp.status 200 hasUrl jsonOk)).2.filter isRetryEvent) = []) :=
  ⟨fun retries st l =>
      ⟨runRetries_state retries l st, runRetries_events retries l st⟩,
    fun retries st index hasUrl jsonOk =>
      actuallySendChunks_success_no_retry retries st index hasUrl jsonOk⟩

/-- Client, `sendChunks` lines 293-296: `slices.reduce(...)` partitions the
non-last chunks into batches of at most `maxParallelUploads`, pushing
`slices.slice(i, i + maxParallelUploads)` whenever `i % maxParallelUploads
== 0`. -/
def groupSlices (slices : List Chunk) (maxPar : Nat) : List (List Chunk) :=
  (List.range slices.length).foldl
    (fun acc i =>
      if i % maxPar = 0 then acc ++ [(slices.drop i).take maxPar] else acc)
    []

/-- Sequential processing of a list of chunk sends through
`actuallySendChunks`, the response for each index drawn from `respond`.
Batches are awaited in order and modelled sequentially. -/
def runChunkList (retries : Nat) (respond : Nat → Resp) :
    ClientState → List Chunk → ClientState × List ClientEv
  | st, [] => (st, [])
  | st, c :: rest =>
    let p := actuallySendChunks retries st c.index (respond c.index)
    let q := runChunkList retries respond p.1 rest
    (q.1, p.2 ++ q.2)

/-- Client, `chibiUploader` lines 94-126: the state at the start of a
session for the given file and chunk size. -/
def initState (file : List Nat) (cs : Nat) : ClientState :=
  { stopUploadsBecauseError := false,
    uploader := { start := 0, chunkIndex := 0,
                  totalChunks := totalChunks file.length cs,
                  retriesCount := 0, offline := false, paused := false } }

/-- Client, `sendChunks` lines 286-314: return if paused or offline;
re-derive the chunk plan; send the batches of all chunks except the last;
then send the last chunk via `chunks.at(-1)` — when the plan is empty the
non-null assertion `lastChunk!.chunk` dereferences `undefined` and the
whole call rejects with a TypeError (modelled as the error result) before
any network activity for that chunk. -/
def sendChunks (retries maxPar : Nat) (respond : Nat → Resp)
    (file : List Nat) (cs : Nat) (st : ClientState) :
    ClientState × List ClientEv × Except String Unit :=
  if st.uploader.paused || st.uploader.offline then (st, [], Except.ok ())
  else
    let chunks := getChunks file cs
    let slices := chunks.take (st.uploader.totalChunks - 1)
    let groups := groupSlices slices maxPar
    let p := runChunkList retries respond st groups.flatten
    match chunks.getLast? with
    | none =>
      (p.1, p.2,
        Except.error "TypeError: Cannot read properties of undefined (reading chunk)")
    | some _ =>
      let q := actuallySendChunks retries p.1 p.1.uploader.totalChunks
        (respond p.1.uploader.totalChunks)
      (q.1, p.2 ++ q.2, Except.ok ())

/-- C9: for a file of size 0 and any positive chunk size the client computes
totalChunks = 0, getChunks returns the empty list, and sendChunks
dereferences the undefined last chunk: the call fails with the TypeError,
performs no network send and emits no event at all (in particular no
onError notification). -/
theorem zeroSize_sendChunks_throws (retries maxPar cs : Nat)
    (respond : Nat → Resp) (hcs : 0 < cs) :
    totalChunks 0 cs = 0
    ∧ getChunks [] cs = []
    ∧ sendChunks retries maxPar respond [] cs (initState [] cs)
      = (initState [] cs, [],
         Except.error "TypeError: Cannot read properties of undefined (reading chunk)") := by
  have h0 : totalChunks 0 cs = 0 := totalChunks_zero cs hcs
  have hchunks : getChunks [] cs = [] := by
    unfold getChunks
    simp [h0]
  refine ⟨h0, hchunks, ?_⟩
  unfold sendChunks
  have hfalse : ((initState [] cs).uploader.paused
      || (initState [] cs).uploader.offline) = false := rfl
  rw [hfalse]
  simp only [Bool.false_eq_true, if_false, hchunks, List.take_nil]
  rfl

/-- Witness for C9 at chunk size 100: the call on an empty file fails with
the TypeError without any send and without any notification. -/
theorem zeroSize_sendChunks_throws_witness :
    totalChunks 0 100 = 0
    ∧ getChunks [] 100 = []
    ∧ sendChunks 5 3 (fun _ => Resp.status 200 true true) [] 100
        (initState [] 100)
      = (initState [] 100, [],
         Except.error "TypeError: Cannot read properties of undefined (reading chunk)") :=
  zeroSize_sendChunks_throws 5 3 100 (fun _ => Resp.status 200 true true)
    (by norm_num)

/-- JS object property assignment on the headers object: replace the value
under an existing key, or append the new key at the end. -/
def setHeader (hs : List (String × String)) (k v : String) :
    List (String × String) :=
  if hs.any (fun p => p.1 == k) then
    hs.map fun p => if p.1 == k then (k, v) else p
  else hs ++ [(k, v)]

/-- Property read on the headers object. -/
def lookupHeader (hs : List (String × String)) (k : String) :
    Option String :=
  (hs.find? (fun p => p.1 == k)).map fun p => p.2

/-- The scheduler-owned state visible to `sendChunk`: the session's shared
`headers` object and the `uploader` record. -/
structure SessionState where
  headers : List (String × String)
  uploader : Uploader
deriving Repr, DecidableEq

/-- The request `sendChunk` issues: the single-chunk XHR whole-file request
or a chunk `fetch`. -/
inductive SendAction
  | xhrSend
  | fetchSend (index : Nat)
deriving Repr, DecidableEq

/-- Client, `sendChunk` lines 150-215: for a single-chunk session the whole
file is sent via XHR and the state is untouched; otherwise line 212
executes `headers['chibi-chunk-number'] = index` — mutating the session's
shared headers object — before the chunk is sent via fetch. -/
def sendChunk (s : SessionState) (index : Nat) :
    SessionState × SendAction :=
  if s.uploader.totalChunks = 1 then (s, SendAction.xhrSend)
  else
    ({ s with
        headers := setHeader s.headers "chibi-chunk-number" (toString index) },
      SendAction.fetchSend index)

theorem find?_setHeader_self (hs : List (String × String)) (k v : String) :
    (setHeader hs k v).find? (fun p => p.1 == k) = some (k, v) := by
  unfold setHeader
  by_cases hany : hs.any (fun p => p.1 == k) = true
  · rw [if_pos hany]
    induction hs with
    | nil => simp at hany
    | cons q t ih =>
      by_cases hq : (q.1 == k) = true
      · simp only [List.map_cons, hq, if_true, List.find?_cons,
          beq_self_eq_true]
      · have hq' : (q.1 == k) = false := by simpa using hq
        have htany : t.any (fun p => p.1 == k) = true := by
          simpa [hq'] using hany
        simp only [List.map_cons, hq', Bool.false_eq_true, if_false,
          List.find?_cons]
        exact ih htany
  · rw [if_neg hany]
    have hnone : hs.find? (fun p => p.1 == k) = none := by
      rw [List.find?_eq_none]
      intro q hq
      intro hb
      exact hany (List.any_eq_true.mpr ⟨q, hq, hb⟩)
    rw [List.find?_append, hnone]
    simp only [Option.none_or, List.find?_cons, beq_self_eq_true]

theorem find?_setHeader_ne (hs : List (String × String)) (k v k' : String)
    (h : k' ≠ k) :
    (setHeader hs k v).find? (fun p => p.1 == k')
      = hs.find? (fun p => p.1 == k') := by
  have hkk : (k == k') = false := beq_eq_false_iff_ne.mpr (Ne.symm h)
  unfold setHeader
  by_cases hany : hs.any (fun p => p.1 == k) = true
  · rw [if_pos hany]
    clear hany
    induction hs with
    | nil => rfl
    | cons q t ih =>
      by_cases hq : (q.1 == k) = true
      · have hqk : q.1 = k := eq_of_beq hq
        have hq' : (q.1 == k') = false := by rw [hqk]; exact hkk
        simp only [List.map_cons, hq, if_true, List.find?_cons, hkk,
          Bool.false_eq_true, hq']
        exact ih
      · have hqf : (q.1 == k) = false := by simpa using hq
        simp only [List.map_cons, hqf, Bool.false_eq_true, if_false,
          List.find?_cons]
        cases hb : (q.1 == k' : Bool) with
        | true => rfl
        | false => exact ih
  · rw [if_neg hany]
    rw [List.find?_append]
    have hlast : ([(k, v)].find? fun p => p.1 == k') = none := by
      simp only [List.find?_cons, hkk]
      rfl
    rw [hlast]
    cases hf : hs.find? (fun p => p.1 == k') <;> rfl

/-- C7 counterexample: `sendChunk` is not free of side effects on scheduler
state.  In a two-chunk session, sending chunk 1 mutates the session's
shared headers object: `headers['chibi-chunk-number'] = index` adds an
entry, so the headers object differs before and after the call. -/
theorem sendChunk_headers_mutated_counterexample :
    (sendChunk
      (SessionState.mk [("chibi-uuid", "u"), ("chibi-chunks-total", "2")]
        (Uploader.mk 0 0 2 0 false false)) 1).1.headers
      ≠ [("chibi-uuid", "u"), ("chibi-chunks-total", "2")] := by
  decide

/-- C7 as amended: `sendChunk` issues the network request and leaves the
uploader record unchanged, and in a single-chunk session it leaves the
whole state unchanged; but in a multi-chunk session it mutates the
session's shared headers object at exactly the `chibi-chunk-number` key,
setting it to the chunk index, while every other header entry reads the
same before and after the call. -/
theorem sendChunk_mutates_only_chunk_number (s : SessionState) (index : Nat) :
    (sendChunk s index).1.uploader = s.uploader
    ∧ (s.uploader.totalChunks = 1 → (sendChunk s index).1 = s)
    ∧ (∀ k, k ≠ "chibi-chunk-number" →
        lookupHeader (sendChunk s index).1.headers k
          = lookupHeader s.headers k)
    ∧ (s.uploader.totalChunks ≠ 1 →
        lookupHeader (sendChunk s index).1.headers "chibi-chunk-number"
          = some (toString index)) := by
  by_cases h1 : s.uploader.totalChunks = 1
  · refine ⟨?_, fun _ => ?_, fun k _ => ?_, fun hne => absurd h1 hne⟩
    · rw [sendChunk, if_pos h1]
    · rw [sendChunk, if_pos h1]
    · rw [sendChunk, if_pos h1]
  · refine ⟨?_, fun heq => absurd heq h1, fun k hk => ?_, fun _ => ?_⟩
    · rw [sendChunk, if_neg h1]
    · rw [sendChunk, if_neg h1]
      show lookupHeader
        (setHeader s.headers "chibi-chunk-number" (toString index)) k = _
      unfold lookupHeader
      rw [find?_setHeader_ne s.headers "chibi-chunk-number" (toString index)
        k hk]
    · rw [sendChunk, if_neg h1]
      show lookupHeader
        (setHeader s.headers "chibi-chunk-number" (toString index))
        "chibi-chunk-number" = _
      unfold lookupHeader
      rw [find?_setHeader_self s.headers "chibi-chunk-number"
        (toString index)]
      rfl

/-- Witness for C7 (amended): in a concrete two-chunk session the
`chibi-uuid` entry reads the same after `sendChunk`, while
`chibi-chunk-number` now reads the chunk index. -/
theorem sendChunk_mutates_only_chunk_number_witness :
    lookupHeader (sendChunk
        (SessionState.mk [("chibi-uuid", "u")]
          (Uploader.mk 0 0 2 0 false false)) 1).1.headers "chibi-uuid"
      = lookupHeader [("chibi-uuid", "u")] "chibi-uuid"
    ∧ lookupHeader (sendChunk
        (SessionState.mk [("chibi-uuid", "u")]
          (Uploader.mk 0 0 2 0 false false)) 1).1.headers "chibi-chunk-number"
      = some (toString 1) :=
  ⟨(sendChunk_mutates_only_chunk_number
      (SessionState.mk [("chibi-uuid", "u")]
        (Uploader.mk 0 0 2 0 false false)) 1).2.2.1 "chibi-uuid" (by decide),
    (sendChunk_mutates_only_chunk_number
      (SessionState.mk [("chibi-uuid", "u")]
        (Uploader.mk 0 0 2 0 false false)) 1).2.2.2 (by decide)⟩

/-- JS regex character class `[\da-f]`: a decimal digit or a lowercase hex
letter. -/
def isLowerHexDigit (c : Char) : Bool :=
  c.isDigit || ('a' ≤ c && c ≤ 'f')

/-- The character admitted at position `i` of the 36-character UUID v4
pattern of `checkIfUuid` line 39:
`[\da-f]{8}-[\da-f]{4}-4[\da-f]{3}-[89ab][\da-f]{3}-[\da-f]{12}`. -/
def uuidCharOk (i : Nat) (c : Char) : Bool :=
  if i = 8 || i = 13 || i = 18 || i = 23 then c == '-'
  else if i = 14 then c == '4'
  else if i = 19 then c == '8' || c == '9' || c == 'a' || c == 'b'
  else isLowerHexDigit c

/-- Whether the UUID pattern matches at the start of the character list
(the pattern consumes exactly 36 characters). -/
def uuidMatchAt (cs : List Char) : Bool :=
  decide (36 ≤ cs.length)
    && ((cs.take 36).enum.all fun p => uuidCharOk p.1 p.2)

/-- JS `regex.test(s)` for the unanchored UUID pattern: search for a match
at every offset of the string. -/
def uuidTest (s : String) : Bool :=
  (List.range (s.length + 1)).any fun off => uuidMatchAt (s.data.drop off)

/-- Server, `checkIfUuid` lines 35-42.  The header value is `none` when the
header is absent; `!headers['chibi-uuid']` is also true for the empty
string (a falsy value), so that case returns `false` as well.  Otherwise a
wrong length or a failed regex test throws, and a matching value returns
`true`. -/
def checkIfUuid (h : Option String) : Except String Bool :=
  match h with
  | none => Except.ok false
  | some s =>
    if s = "" then Except.ok false
    else if s.length ≠ 36 then
      Except.error "chibi-uuid does not meet the length criteria"
    else if uuidTest s then Except.ok true
    else Except.error "chibi-uuid is not a valid uuid"

/-- Anchored well-formedness following the spec's words: a 36-character
string matching the UUID v4 syntax position by position. -/
def isUuidV4Spec (s : String) : Bool :=
  decide (s.length = 36) && (s.data.enum.all fun p => uuidCharOk p.1 p.2)

/-- On 36-character strings the unanchored search is equivalent to the
anchored match: an offset of 1 or more leaves fewer than 36 characters. -/
theorem uuidTest_eq_spec (s : String) (h : s.length = 36) :
    uuidTest s = isUuidV4Spec s := by
  have hdata : s.data.length = 36 := h
  have hoff : ∀ off, 1 ≤ off → uuidMatchAt (s.data.drop off) = false := by
    intro off hoff1
    unfold uuidMatchAt
    have hlen : (s.data.drop off).length = 36 - off := by
      rw [List.length_drop, hdata]
    have hnot : ¬(36 ≤ (s.data.drop off).length) := by
      rw [hlen]; omega
    rw [decide_eq_false hnot, Bool.false_and]
  have htake : s.data.take 36 = s.data :=
    List.take_of_length_le (by rw [hdata])
  have hm0 : uuidMatchAt s.data
      = (s.data.enum.all fun p => uuidCharOk p.1 p.2) := by
    unfold uuidMatchAt
    rw [decide_eq_true (by rw [hdata] : 36 ≤ s.data.length), Bool.true_and,
      htake]
  unfold uuidTest isUuidV4Spec
  rw [h]
  rw [decide_eq_true (rfl : (36 : Nat) = 36), Bool.true_and]
  cases hall : (s.data.enum.all fun p => uuidCharOk p.1 p.2) with
  | true =>
    apply List.any_eq_true.mpr
    refine ⟨0, List.mem_range.mpr (by omega), ?_⟩
    rw [List.drop_zero, hm0, hall]
  | false =>
    apply List.any_eq_false.mpr
    intro off hmem
    intro hc
    rcases Nat.eq_zero_or_pos off with h0 | hpos
    · subst h0
      rw [List.drop_zero, hm0, hall] at hc
      exact Bool.false_ne_true hc
    · rw [hoff off hpos] at hc
      exact Bool.false_ne_true hc

/-- C6 counterexample: the empty string is a present `chibi-uuid` value
whose length (0) is not 36, yet `checkIfUuid` does not throw the length
validation error: the initial falsy check `!headers['chibi-uuid']` is true
for the empty string, so the function returns `false` (single-shot mode)
instead. -/
theorem checkIfUuid_empty_counterexample :
    checkIfUuid (some "") = Except.ok false
    ∧ "".length ≠ 36
    ∧ checkIfUuid (some "")
      ≠ Except.error "chibi-uuid does not meet the length criteria" := by
  refine ⟨rfl, by decide, ?_⟩
  intro hc
  exact Except.noConfusion hc

/-- C6 as amended: `checkIfUuid` returns `false` when the header is absent
and also when its value is the empty string (a falsy value); for every
present non-empty value it throws the length error when the length is not
36 and the uuid error when the length is 36 but the value does not match
the anchored UUID v4 syntax, and it returns `true` exactly on the
well-formed 36-character UUID v4 values. -/
theorem checkIfUuid_cases :
    checkIfUuid none = Except.ok false
    ∧ checkIfUuid (some "") = Except.ok false
    ∧ (∀ s : String, s ≠ "" → s.length ≠ 36 →
        checkIfUuid (some s)
          = Except.error "chibi-uuid does not meet the length criteria")
    ∧ (∀ s : String, isUuidV4Spec s = true →
        checkIfUuid (some s) = Except.ok true)
    ∧ (∀ s : String, s.length = 36 → isUuidV4Spec s = false →
        checkIfUuid (some s)
          = Except.error "chibi-uuid is not a valid uuid") := by
  refine ⟨rfl, rfl, ?_, ?_, ?_⟩
  · intro s hne hlen
    show (if s = "" then Except.ok false
      else if s.length ≠ 36 then
        Except.error "chibi-uuid does not meet the length criteria"
      else if uuidTest s then Except.ok true
      else Except.error "chibi-uuid is not a valid uuid") = _
    rw [if_neg hne, if_pos hlen]
  · intro s hspec
    have hlen : s.length = 36 := by
      unfold isUuidV4Spec at hspec
      rw [Bool.and_eq_true] at hspec
      exact of_decide_eq_true hspec.1
    have hne : s ≠ "" := by
      intro he
      rw [he] at hlen
      exact absurd hlen (by decide)
    show (if s = "" then Except.ok false
      else if s.length ≠ 36 then
        Except.error "chibi-uuid does not meet the length criteria"
      else if uuidTest s then Except.ok true
      else Except.error "chibi-uuid is not a valid uuid") = _
    rw [if_neg hne, if_neg (fun hc => hc hlen),
      if_pos (by rw [uuidTest_eq_spec s hlen]; exact hspec)]
  · intro s hlen hspec
    have hne : s ≠ "" := by
      intro he
      rw [he] at hlen
      exact absurd hlen (by decide)
    show (if s = "" then Except.ok false
      else if s.length ≠ 36 then
        Except.error "chibi-uuid does not meet the length criteria"
      else if uuidTest s then Except.ok true
      else Except.error "chibi-uuid is not a valid uuid") = _
    rw [if_neg hne, if_neg (fun hc => hc hlen)]
    rw [if_neg ?_]
    rw [uuidTest_eq_spec s hlen, hspec]
    exact Bool.false_ne_true

/-- Witness for C6 (amended): the repository test suite's own examples — a
well-formed UUID v4 value passes, a short value fails with the length
error. -/
theorem checkIfUuid_cases_witness :
    checkIfUuid (some "67fe1028-8875-480a-8aab-1540230f5674")
      = Except.ok true
    ∧ checkIfUuid (some "abc")
      = Except.error "chibi-uuid does not meet the length criteria" :=
  ⟨checkIfUuid_cases.2.2.2.1 "67fe1028-8875-480a-8aab-1540230f5674"
      (by decide),
    checkIfUuid_cases.2.2.1 "abc" (by decide) (by decide)⟩
